import Mathlib

/-!
Verification of the drag-interaction state machine of the hooksy repository
(packages/core/src/hooks/elements/useDraggable/index.tsx), shallowly embedded
in Lean. Coordinates are modelled as integers; the React state plus the two
refs form the controller state; the document-level listeners installed by the
effect form the event dispatch; caller callbacks are recorded as data.
-/

namespace Hooksy

/-- A two-dimensional coordinate pair `{x, y}`. -/
structure Pos where
  x : Int
  y : Int
deriving DecidableEq, Repr

/-- The React state kept by useDraggable:
`{ isDragging, position, delta, startPosition }`. -/
structure DragState where
  isDragging : Bool
  position : Pos
  delta : Pos
  startPosition : Option Pos
deriving DecidableEq, Repr

/-- The DraggableBounds rectangle `{left, top, right, bottom}` of the options. -/
structure Bounds where
  left : Int
  top : Int
  right : Int
  bottom : Int
deriving DecidableEq, Repr

/-- The axis option: "x", "y" or "both". -/
inductive Axis where
  | x
  | y
  | both
deriving DecidableEq, Repr

/-- A DOM element as useDraggable observes it: a node identity (for the
reference-equality check `event.target === elementRef.current`) and the
left/top corner of its bounding client rect. -/
structure Elem where
  id : Nat
  left : Int
  top : Int
deriving DecidableEq, Repr

/-- The options the handlers read. `hasDocument`/`hasWindow` record whether
`customDocument`/`customWindow` resolved to an object (the listener effect
returns early when either is missing). -/
structure Config where
  axis : Axis
  bounds : Option Bounds
  disabled : Bool
  hasDocument : Bool
  hasWindow : Bool
deriving DecidableEq, Repr

/-- The controller's mutable state: the React drag state plus the two refs
`startPosRef` and `elementRef`. -/
structure ControllerState where
  drag : DragState
  startPosRef : Option Pos
  elementRef : Option Elem
deriving DecidableEq, Repr

/-- Pointer payload of a native event: `clientX`/`clientY` of a MouseEvent,
or the `touches` list of a TouchEvent. -/
inductive PointerData where
  | mouse (clientX clientY : Int)
  | touch (touches : List Pos)
deriving DecidableEq, Repr

/-- Which document-level listener the event reaches:
mousedown/touchstart, mousemove/touchmove, or mouseup/touchend. -/
inductive EventKind where
  | down
  | move
  | up
deriving DecidableEq, Repr

/-- A native event as delivered to the document-level listeners; `target` is
the identity of the event's target node. -/
structure InputEvent where
  kind : EventKind
  data : PointerData
  target : Nat
deriving DecidableEq, Repr

/-- A callback invocation (onStart/onMove/onEnd), recorded with the state it
was passed. -/
inductive Callback where
  | onStart (s : DragState)
  | onMove (s : DragState)
  | onEnd (s : DragState)
deriving DecidableEq, Repr

/-- Source function getCurrentPosition: `clientX`/`clientY` of a mouse
event, `touches[0]` of a touch event. Reading `touches[0].clientX` of an
empty touches list would be a JavaScript TypeError, modelled as an error. -/
def getCurrentPosition : PointerData → Except String Pos
  | .mouse cx cy => .ok ⟨cx, cy⟩
  | .touch [] => .error "TypeError: touches[0] is undefined"
  | .touch (t :: _) => .ok t

/-- Source function constrainPosition: identity without bounds, otherwise
`x = max(left, min(right, x))`, `y = max(top, min(bottom, y))`. -/
def constrainPosition (bounds : Option Bounds) (pos : Pos) : Pos :=
  match bounds with
  | none => pos
  | some b => ⟨max b.left (min b.right pos.x), max b.top (min b.bottom pos.y)⟩

/-- Source function applyAxisConstraints: hold the non-selected coordinate
at the current state position. -/
def applyAxisConstraints (ax : Axis) (statePos pos : Pos) : Pos :=
  match ax with
  | .x => ⟨pos.x, statePos.y⟩
  | .y => ⟨statePos.x, pos.y⟩
  | .both => pos

/-- The y-component of `constrainPosition`, as its own function. -/
def clampY : Option Bounds → Int → Int
  | none, y => y
  | some b, y => max b.top (min b.bottom y)

/-- The successful branch of `handleDragStart`: record the pointer offset from
the element's rect corner in `startPosRef`, set `isDragging`, keep `position`,
zero `delta`, and fire `onStart` with the new state. -/
def startUpdate (cs : ControllerState) (el : Elem) (currentPos : Pos) :
    ControllerState × List Callback :=
  let sp : Pos := ⟨currentPos.x - el.left, currentPos.y - el.top⟩
  let newState : DragState := ⟨true, cs.drag.position, ⟨0, 0⟩, some sp⟩
  ({ cs with drag := newState, startPosRef := some sp }, [.onStart newState])

/-- Source function handleDragStart. Returns the next controller state with
the callbacks fired; `Except.error` is an uncaught JavaScript exception. The
handler bails out when `disabled` is set, and does nothing when the element
ref is empty (no bounding rect). It never consults `isDragging`. -/
def handleDragStart (cfg : Config) (cs : ControllerState) (data : PointerData) :
    Except String (ControllerState × List Callback) :=
  if cfg.disabled then .ok (cs, [])
  else
    match getCurrentPosition data, cs.elementRef with
    | .error msg, _ => .error msg
    | .ok _, none => .ok (cs, [])
    | .ok currentPos, some el => .ok (startUpdate cs el currentPos)

/-- The successful branch of `handleDragMove`: raw position = pointer minus
`startPosRef`, then the axis constraint, then the bounds clamp, then
`delta` = final position minus previous position, then `onMove`. -/
def moveUpdate (cfg : Config) (cs : ControllerState) (sp currentPos : Pos) :
    ControllerState × List Callback :=
  let newPosition : Pos := ⟨currentPos.x - sp.x, currentPos.y - sp.y⟩
  let constrainedPos := applyAxisConstraints cfg.axis cs.drag.position newPosition
  let finalPos := constrainPosition cfg.bounds constrainedPos
  let delta : Pos := ⟨finalPos.x - cs.drag.position.x, finalPos.y - cs.drag.position.y⟩
  let newState : DragState := ⟨true, finalPos, delta, some sp⟩
  ({ cs with drag := newState }, [.onMove newState])

/-- Source function handleDragMove: a no-op unless a drag is in progress,
the hook is enabled and `startPosRef` is set (the source's guard
`!isDragging || disabled || !startPosRef.current`). -/
def handleDragMove (cfg : Config) (cs : ControllerState) (data : PointerData) :
    Except String (ControllerState × List Callback) :=
  match cs.startPosRef with
  | none => .ok (cs, [])
  | some sp =>
    if !cs.drag.isDragging || cfg.disabled then .ok (cs, [])
    else
      match getCurrentPosition data with
      | .error msg => .error msg
      | .ok currentPos => .ok (moveUpdate cfg cs sp currentPos)

/-- The successful branch of `handleDragEnd`: clear `isDragging`, null the
`startPosRef` ref (the state's `startPosition` and `delta` fields are kept as
they were), and fire `onEnd` with the new state. -/
def endUpdate (cs : ControllerState) : ControllerState × List Callback :=
  let newState : DragState := { cs.drag with isDragging := false }
  ({ cs with drag := newState, startPosRef := none }, [.onEnd newState])

/-- Source function handleDragEnd: a no-op unless dragging. -/
def handleDragEnd (cs : ControllerState) :
    Except String (ControllerState × List Callback) :=
  if !cs.drag.isDragging then .ok (cs, [])
  else .ok (endUpdate cs)

/-- The check `event.target === elementRef.current` of handleMouseDown and
handleTouchStart, for a real (non-null) target node. -/
def targetMatches (target : Nat) : Option Elem → Bool
  | none => false
  | some el => el.id = target

/-- The document-level listeners installed by the effect. When
`customDocument` or `customWindow` is missing, or `disabled` is set, the
effect returns before adding any listener, so every event is invisible to
the controller. Down events are forwarded to `handleDragStart` only when the
target is the attached element; move and up events are forwarded always. -/
def dispatchEvent (cfg : Config) (cs : ControllerState) (e : InputEvent) :
    Except String (ControllerState × List Callback) :=
  if !cfg.hasDocument || !cfg.hasWindow || cfg.disabled then .ok (cs, [])
  else
    match e.kind with
    | .down =>
        if targetMatches e.target cs.elementRef then handleDragStart cfg cs e.data
        else .ok (cs, [])
    | .move => handleDragMove cfg cs e.data
    | .up => handleDragEnd cs

/-- Source function setPosition: store the clamped position, touching
nothing else. -/
def setPosition (cfg : Config) (cs : ControllerState) (x y : Int) :
    ControllerState :=
  { cs with drag := { cs.drag with position := constrainPosition cfg.bounds ⟨x, y⟩ } }

/-- Source function resetPosition: store `position = {0,0}` and
`delta = {0,0}` with no clamping, touching nothing else. -/
def resetPosition (cs : ControllerState) : ControllerState :=
  { cs with drag := { cs.drag with position := ⟨0, 0⟩, delta := ⟨0, 0⟩ } }

/-- Source function setElementRef (the returned ref setter). -/
def setElementRef (cs : ControllerState) (el : Option Elem) : ControllerState :=
  { cs with elementRef := el }

/-- The initial useState value plus empty refs. -/
def initialState : ControllerState :=
  { drag := ⟨false, ⟨0, 0⟩, ⟨0, 0⟩, none⟩
    startPosRef := none
    elementRef := none }

/-- An externally triggered step: a native event, a `setPosition` or
`resetPosition` call, or re-attaching the element ref. -/
inductive Action where
  | event (e : InputEvent)
  | setPos (x y : Int)
  | reset
  | attach (el : Option Elem)
deriving DecidableEq, Repr

/-- Execute one action. An uncaught exception inside a handler happens before
`setDraggableState`, so the stored state is left as it was. -/
def stepAction (cfg : Config) (cs : ControllerState) :
    Action → ControllerState × List Callback
  | .event e =>
      match dispatchEvent cfg cs e with
      | .ok r => r
      | .error _ => (cs, [])
  | .setPos x y => (setPosition cfg cs x y, [])
  | .reset => (resetPosition cs, [])
  | .attach el => (setElementRef cs el, [])

/-- Run a list of actions, accumulating the callbacks fired, in order. -/
def runTrace (cfg : Config) : ControllerState → List Action →
    ControllerState × List Callback
  | cs, [] => (cs, [])
  | cs, a :: rest =>
      let r := stepAction cfg cs a
      let tail := runTrace cfg r.1 rest
      (tail.1, r.2 ++ tail.2)

/-- The state after a list of actions. -/
def run (cfg : Config) (cs : ControllerState) (as : List Action) :
    ControllerState :=
  (runTrace cfg cs as).1

/-- Membership of a position in a bounds rectangle, both axes inclusive. -/
def inBounds (b : Bounds) (p : Pos) : Prop :=
  b.left ≤ p.x ∧ p.x ≤ b.right ∧ b.top ≤ p.y ∧ p.y ≤ b.bottom

instance (b : Bounds) (p : Pos) : Decidable (inBounds b p) := by
  unfold inBounds; infer_instance

/-- An event a browser can actually deliver: mouse events always carry
coordinates, and touchstart/touchmove always carry at least one contact
point (only touchend may have an empty `touches` list). -/
def wellFormedEvent (e : InputEvent) : Prop :=
  match e.data with
  | .mouse _ _ => True
  | .touch ts => e.kind = .up ∨ ts ≠ []

/-- Default options: axis "both", no bounds, enabled, document and window
present. -/
def cfgPlain : Config := ⟨.both, none, false, true, true⟩

/-- An element with node identity 1 whose bounding rect corner is (10, 10). -/
def elemTen : Elem := ⟨1, 10, 10⟩

/-- The end-to-end scenario of the spec: attach the (10,10) element,
mouse-down at (15,15) on it, mouse-move to (115,15), mouse-up. -/
def scenarioTrace : List Action :=
  [.attach (some elemTen),
   .event ⟨.down, .mouse 15 15, 1⟩,
   .event ⟨.move, .mouse 115 15, 1⟩,
   .event ⟨.up, .mouse 115 15, 1⟩]

/-- A bounds rectangle [10,50] × [10,50], not containing the origin. -/
def boundsEx : Bounds := ⟨10, 10, 50, 50⟩

/-- Default options plus the `boundsEx` bounds. -/
def cfgBounded : Config := ⟨.both, some boundsEx, false, true, true⟩

/-- A degenerate bounds rectangle with left (30) > right (10) and
top (30) > bottom (10). -/
def boundsDeg : Bounds := ⟨30, 30, 10, 10⟩

/-- Default options plus the degenerate `boundsDeg` bounds. -/
def cfgDegenerate : Config := ⟨.both, some boundsDeg, false, true, true⟩

/-- A controller state in the middle of a drag session: dragging, position
(0,0), a non-zero delta, start offset (5,5), element (id 1, rect corner
(0,0)) attached. -/
def csMidDrag : ControllerState :=
  ⟨⟨true, ⟨0, 0⟩, ⟨3, 3⟩, some ⟨5, 5⟩⟩, some ⟨5, 5⟩, some ⟨1, 0, 0⟩⟩

/-- A mouse-down at (2,2) targeting node 1 (the attached element). -/
def evDownMid : InputEvent := ⟨.down, .mouse 2 2, 1⟩

/-- Bounds whose vertical range [10,50] excludes the initial y = 0. -/
def boundsYOff : Bounds := ⟨0, 10, 100, 50⟩

/-- Options with axis "x" and the `boundsYOff` bounds. -/
def cfgAxisX : Config := ⟨.x, some boundsYOff, false, true, true⟩

/-- An element with node identity 1 whose bounding rect corner is (0, 0). -/
def elemOrigin : Elem := ⟨1, 0, 0⟩

/-- Attach the origin element, mouse-down at (5,5) on it, move to (7,5). -/
def axisTrace : List Action :=
  [.attach (some elemOrigin),
   .event ⟨.down, .mouse 5 5, 1⟩,
   .event ⟨.move, .mouse 7 5, 1⟩]

/-- The state after the attach and the down of the scenario trace. -/
def csAfterDown : ControllerState := run cfgPlain initialState (scenarioTrace.take 2)

/-- The mouse-move to (115,15) of the scenario. -/
def evMove115 : InputEvent := ⟨.move, .mouse 115 15, 1⟩

/-- The state the scenario's move produces from `csAfterDown`. -/
def csAfterMove : ControllerState :=
  ⟨⟨true, ⟨110, 10⟩, ⟨110, 10⟩, some ⟨5, 5⟩⟩, some ⟨5, 5⟩, some elemTen⟩

/-- The move of `axisTrace`, as a one-event list. -/
def axisMoves : List InputEvent := [⟨.move, .mouse 7 5, 1⟩]

end Hooksy

namespace Hooksy

theorem run_nil (cfg : Config) (cs : ControllerState) : run cfg cs [] = cs := rfl

theorem run_cons (cfg : Config) (cs : ControllerState) (a : Action)
    (rest : List Action) :
    run cfg cs (a :: rest) = run cfg (stepAction cfg cs a).1 rest := rfl

theorem getCurrentPosition_ok_of_ne_nil (d : PointerData)
    (h : ∀ ts, d = .touch ts → ts ≠ []) :
    ∃ p, getCurrentPosition d = .ok p := by
  cases d with
  | mouse cx cy => exact ⟨_, rfl⟩
  | touch ts =>
      cases ts with
      | nil => exact absurd rfl (h [] rfl)
      | cons a l => exact ⟨a, rfl⟩

theorem wellFormed_getCurrentPosition (e : InputEvent)
    (hne : e.kind ≠ EventKind.up) (hwf : wellFormedEvent e) :
    ∃ p, getCurrentPosition e.data = .ok p := by
  obtain ⟨k, d, t⟩ := e
  cases d with
  | mouse cx cy => exact ⟨_, rfl⟩
  | touch ts =>
      cases ts with
      | nil =>
          simp [wellFormedEvent] at hwf
          exact absurd hwf hne
      | cons a l => exact ⟨a, rfl⟩

theorem handleDragStart_ok (cfg : Config) (cs : ControllerState)
    (d : PointerData) (h : ∃ p, getCurrentPosition d = .ok p) :
    ∃ r, handleDragStart cfg cs d = .ok r := by
  obtain ⟨p, hp⟩ := h
  by_cases hc : cfg.disabled = true
  · exact ⟨(cs, []), by simp [handleDragStart, hc]⟩
  · cases hel : cs.elementRef with
    | none => exact ⟨(cs, []), by simp [handleDragStart, hc, hp, hel]⟩
    | some el =>
        exact ⟨startUpdate cs el p, by simp [handleDragStart, hc, hp, hel]⟩

theorem handleDragMove_ok (cfg : Config) (cs : ControllerState)
    (d : PointerData) (h : ∃ p, getCurrentPosition d = .ok p) :
    ∃ r, handleDragMove cfg cs d = .ok r := by
  obtain ⟨p, hp⟩ := h
  cases hsp : cs.startPosRef with
  | none => exact ⟨(cs, []), by simp [handleDragMove, hsp]⟩
  | some sp =>
      by_cases hc : (!cs.drag.isDragging || cfg.disabled) = true
      · exact ⟨(cs, []), by simp only [handleDragMove, hsp, hc, if_true]⟩
      · exact ⟨moveUpdate cfg cs sp p, by simp [handleDragMove, hsp, hc, hp]⟩

theorem handleDragEnd_ok (cs : ControllerState) :
    ∃ r, handleDragEnd cs = .ok r := by
  unfold handleDragEnd
  split
  · exact ⟨_, rfl⟩
  · exact ⟨_, rfl⟩

theorem handleDragStart_ok_cases (cfg : Config) (cs : ControllerState)
    (d : PointerData) (r : ControllerState × List Callback)
    (h : handleDragStart cfg cs d = .ok r) :
    r = (cs, []) ∨
    ∃ el p, cs.elementRef = some el ∧ getCurrentPosition d = .ok p ∧
      cfg.disabled = false ∧ r = startUpdate cs el p := by
  simp only [handleDragStart] at h
  split at h
  · exact Or.inl (Except.ok.inj h).symm
  · rename_i hdis
    split at h
    · exact absurd h (by simp)
    · exact Or.inl (Except.ok.inj h).symm
    · rename_i p el hgc hel
      exact Or.inr ⟨el, p, hel, hgc, by simpa using hdis,
        (Except.ok.inj h).symm⟩

theorem handleDragMove_ok_cases (cfg : Config) (cs : ControllerState)
    (d : PointerData) (r : ControllerState × List Callback)
    (h : handleDragMove cfg cs d = .ok r) :
    r = (cs, []) ∨
    ∃ sp p, cs.startPosRef = some sp ∧ cs.drag.isDragging = true ∧
      cfg.disabled = false ∧ getCurrentPosition d = .ok p ∧
      r = moveUpdate cfg cs sp p := by
  simp only [handleDragMove] at h
  split at h
  · exact Or.inl (Except.ok.inj h).symm
  · rename_i sp hsp
    split at h
    · exact Or.inl (Except.ok.inj h).symm
    · rename_i hguard
      split at h
      · exact absurd h (by simp)
      · rename_i p hgc
        have hg : cs.drag.isDragging = true ∧ cfg.disabled = false := by
          simpa using hguard
        exact Or.inr ⟨sp, p, hsp, hg.1, hg.2, hgc, (Except.ok.inj h).symm⟩

theorem handleDragEnd_ok_cases (cs : ControllerState)
    (r : ControllerState × List Callback) (h : handleDragEnd cs = .ok r) :
    r = (cs, []) ∨ (cs.drag.isDragging = true ∧ r = endUpdate cs) := by
  unfold handleDragEnd at h
  split at h
  · exact Or.inl (Except.ok.inj h).symm
  · rename_i hguard
    exact Or.inr ⟨by simpa using hguard, (Except.ok.inj h).symm⟩

theorem dispatchEvent_ok_cases (cfg : Config) (cs : ControllerState)
    (e : InputEvent) (r : ControllerState × List Callback)
    (h : dispatchEvent cfg cs e = .ok r) :
    r = (cs, []) ∨
    (e.kind = .down ∧ ∃ el p, cs.elementRef = some el ∧
      getCurrentPosition e.data = .ok p ∧ cfg.disabled = false ∧
      r = startUpdate cs el p) ∨
    (e.kind = .move ∧ ∃ sp p, cs.startPosRef = some sp ∧
      cs.drag.isDragging = true ∧ cfg.disabled = false ∧
      getCurrentPosition e.data = .ok p ∧ r = moveUpdate cfg cs sp p) ∨
    (e.kind = .up ∧ cs.drag.isDragging = true ∧ r = endUpdate cs) := by
  obtain ⟨k, d, t⟩ := e
  cases k with
  | down =>
      simp only [dispatchEvent] at h
      split at h
      · exact Or.inl (Except.ok.inj h).symm
      · split at h
        · rcases handleDragStart_ok_cases cfg cs d r h with h1 | ⟨el, p, h2⟩
          · exact Or.inl h1
          · exact Or.inr (Or.inl ⟨rfl, el, p, h2⟩)
        · exact Or.inl (Except.ok.inj h).symm
  | move =>
      simp only [dispatchEvent] at h
      split at h
      · exact Or.inl (Except.ok.inj h).symm
      · rcases handleDragMove_ok_cases cfg cs d r h with h1 | ⟨sp, p, h2⟩
        · exact Or.inl h1
        · exact Or.inr (Or.inr (Or.inl ⟨rfl, sp, p, h2⟩))
  | up =>
      simp only [dispatchEvent] at h
      split at h
      · exact Or.inl (Except.ok.inj h).symm
      · rcases handleDragEnd_ok_cases cs r h with h1 | h2
        · exact Or.inl h1
        · exact Or.inr (Or.inr (Or.inr ⟨rfl, h2⟩))

theorem constrainPosition_y (bo : Option Bounds) (p : Pos) :
    (constrainPosition bo p).y = clampY bo p.y := by
  cases bo <;> simp [constrainPosition, clampY]

theorem clampY_idem (bo : Option Bounds) (y : Int) :
    clampY bo (clampY bo y) = clampY bo y := by
  cases bo with
  | none => rfl
  | some b => simp [clampY]; omega

theorem inBounds_constrainPosition (b : Bounds) (h1 : b.left ≤ b.right)
    (h2 : b.top ≤ b.bottom) (p : Pos) :
    inBounds b (constrainPosition (some b) p) := by
  simp [inBounds, constrainPosition]
  omega

/-- Claim C1, counterexample: in a mid-drag state (isDragging = true,
disabled = false) a mouse-down on the attached element is NOT ignored: the
stored DragState changes (delta is zeroed, startPosition re-recorded) and a
callback (onStart) fires, because handleDragStart never checks isDragging. -/
theorem c1_nested_start_cex :
    csMidDrag.drag.isDragging = true ∧ cfgPlain.disabled = false ∧
    targetMatches evDownMid.target csMidDrag.elementRef = true ∧
    ¬ ((stepAction cfgPlain csMidDrag (.event evDownMid)).1 = csMidDrag ∧
       (stepAction cfgPlain csMidDrag (.event evDownMid)).2 = []) := by
  decide

/-- Claim C2, counterexample: run attach, down at (15,15), move to (115,15),
up. In the resulting state isDragging = false, yet the DragState still holds
startPosition = some (5,5) and delta = (110,10): handleDragEnd clears only
the startPosRef ref, not the state's startPosition field, and keeps delta. -/
theorem c2_idle_state_cex :
    (run cfgPlain initialState scenarioTrace).drag.isDragging = false ∧
    ¬ ((run cfgPlain initialState scenarioTrace).drag.startPosition = none ∧
       (run cfgPlain initialState scenarioTrace).drag.delta = ⟨0, 0⟩) := by
  decide

/-- Claim C3, counterexample: two concrete violations of "an out-of-bounds
position is never stored". First, with bounds [10,50] × [10,50] configured, a
setPosition(20,20) (in bounds) followed by resetPosition() stores position
(0,0), which violates bounds.left ≤ position.x: resetPosition does not clamp.
Second, with the degenerate bounds (left 30 > right 10) configured, even
setPosition(20,20) stores (30,30), which violates position.x ≤ bounds.right:
the clamp formula max(left, min(right, x)) cannot land inside an empty
range, so the claim also fails for non-well-formed bounds rectangles. -/
theorem c3_bounds_cex :
    (cfgBounded.bounds = some boundsEx ∧
     ¬ inBounds boundsEx
        (run cfgBounded initialState [.setPos 20 20, .reset]).drag.position) ∧
    (cfgDegenerate.bounds = some boundsDeg ∧
     ¬ inBounds boundsDeg
        (setPosition cfgDegenerate initialState 20 20).drag.position) := by
  decide

/-- Claim C6, counterexample: with axis = "x" and bounds whose vertical range
is [10,50], the y at drag start is 0, but after one move event position.y is
10, not 0: the bounds clamp is applied to the axis-frozen y as well. -/
theorem c6_axis_cex :
    cfgAxisX.axis = Axis.x ∧
    (run cfgAxisX initialState (axisTrace.take 2)).drag.position.y = 0 ∧
    (run cfgAxisX initialState axisTrace).drag.position.y ≠ 0 := by
  decide

/-- Claim C7: the end-to-end scenario. After the down at (15,15) on the
element with rect corner (10,10): startPosition = some (5,5) and
isDragging = true. After the move to (115,15): position = (110,10) and
delta = (110,10). After the up: isDragging = false with delta unchanged, and
the full callback trace is exactly onStart, onMove, onEnd, the onEnd carrying
the final state (exactly one onEnd). -/
theorem c7_scenario :
    (run cfgPlain initialState (scenarioTrace.take 2)).drag =
      ⟨true, ⟨0, 0⟩, ⟨0, 0⟩, some ⟨5, 5⟩⟩ ∧
    (run cfgPlain initialState (scenarioTrace.take 3)).drag =
      ⟨true, ⟨110, 10⟩, ⟨110, 10⟩, some ⟨5, 5⟩⟩ ∧
    (runTrace cfgPlain initialState scenarioTrace).1.drag =
      ⟨false, ⟨110, 10⟩, ⟨110, 10⟩, some ⟨5, 5⟩⟩ ∧
    (runTrace cfgPlain initialState scenarioTrace).2 =
      [.onStart ⟨true, ⟨0, 0⟩, ⟨0, 0⟩, some ⟨5, 5⟩⟩,
       .onMove ⟨true, ⟨110, 10⟩, ⟨110, 10⟩, some ⟨5, 5⟩⟩,
       .onEnd ⟨false, ⟨110, 10⟩, ⟨110, 10⟩, some ⟨5, 5⟩⟩] := by
  decide

/-- Claim C1, amended: a pointer/touch-down on the attached element while
isDragging = true (disabled = false, document and window present) restarts
the session instead of being ignored: the stored position is kept, delta is
reset to (0,0), a fresh startOffset is recorded from the new pointer
position, and onStart fires once with exactly that state. -/
theorem c1_nested_start_restarts (cfg : Config) (cs : ControllerState)
    (e : InputEvent) (el : Elem) (p : Pos)
    (hdoc : cfg.hasDocument = true) (hwin : cfg.hasWindow = true)
    (hdis : cfg.disabled = false) (hdrag : cs.drag.isDragging = true)
    (hel : cs.elementRef = some el)
    (htgt : targetMatches e.target cs.elementRef = true)
    (hk : e.kind = EventKind.down)
    (hp : getCurrentPosition e.data = Except.ok p) :
    dispatchEvent cfg cs e =
      Except.ok
        ({ cs with
            drag := ⟨true, cs.drag.position, ⟨0, 0⟩,
                     some ⟨p.x - el.left, p.y - el.top⟩⟩,
            startPosRef := some ⟨p.x - el.left, p.y - el.top⟩ },
         [Callback.onStart
            ⟨true, cs.drag.position, ⟨0, 0⟩,
             some ⟨p.x - el.left, p.y - el.top⟩⟩]) := by
  obtain ⟨k, d, t⟩ := e
  simp only at hk
  subst hk
  rw [hel] at htgt
  simp [dispatchEvent, handleDragStart, startUpdate, hdoc, hwin, hdis, hel,
    htgt, hp]

/-- Witness for the amended C1: the concrete mid-drag state and down event of
the counterexample, with the restart state spelled out. -/
theorem c1_witness :
    dispatchEvent cfgPlain csMidDrag evDownMid =
      Except.ok
        (⟨⟨true, ⟨0, 0⟩, ⟨0, 0⟩, some ⟨2, 2⟩⟩, some ⟨2, 2⟩, some ⟨1, 0, 0⟩⟩,
         [Callback.onStart ⟨true, ⟨0, 0⟩, ⟨0, 0⟩, some ⟨2, 2⟩⟩]) := by
  have h := c1_nested_start_restarts cfgPlain csMidDrag evDownMid ⟨1, 0, 0⟩
    ⟨2, 2⟩ rfl rfl rfl rfl rfl (by decide) rfl rfl
  exact h

/-- Claim C2, amended: in every state reachable by any sequence of attach,
pointer/touch events, setPosition and resetPosition calls from the initial
state, isDragging = false implies the internal start ref (startPosRef) is
cleared; the exposed state's startPosition field and delta, however, retain
their last-session values after a pointer/touch-up (see the counterexample),
so the claim holds for the ref, not for the exposed startPosition/delta. -/
theorem c2_idle_ref_cleared (cfg : Config) (as : List Action)
    (h : (run cfg initialState as).drag.isDragging = false) :
    (run cfg initialState as).startPosRef = none := by
  have main : ∀ (acts : List Action) (cs : ControllerState),
      (cs.drag.isDragging = false → cs.startPosRef = none) →
      ((run cfg cs acts).drag.isDragging = false →
        (run cfg cs acts).startPosRef = none) := by
    intro acts
    induction acts with
    | nil => intro cs hcs; exact hcs
    | cons a rest ih =>
        intro cs hcs
        rw [run_cons]
        refine ih (stepAction cfg cs a).1 ?_
        cases a with
        | event ev =>
            simp only [stepAction]
            cases hd : dispatchEvent cfg cs ev with
            | error m => simpa using hcs
            | ok r =>
                simp only
                rcases dispatchEvent_ok_cases cfg cs ev r hd with
                  h1 | ⟨_, el, p, _, _, _, hr⟩ | ⟨_, sp, p, _, _, _, _, hr⟩ |
                  ⟨_, _, hr⟩
                · rw [h1]; exact hcs
                · subst hr; intro hfalse; simp [startUpdate] at hfalse
                · subst hr; intro hfalse; simp [moveUpdate] at hfalse
                · subst hr; intro _; simp [endUpdate]
        | setPos x y => simpa [stepAction, setPosition] using hcs
        | reset => simpa [stepAction, resetPosition] using hcs
        | attach el => simpa [stepAction, setElementRef] using hcs
  exact main as initialState (fun _ => rfl) h

/-- Witness for the amended C2: after the full end-to-end trace the state is
idle and the start ref is indeed cleared. -/
theorem c2_witness : (run cfgPlain initialState scenarioTrace).startPosRef = none :=
  c2_idle_ref_cleared cfgPlain scenarioTrace (by decide)

/-- Claim C3, amended: with a well-formed bounds rectangle configured
(left ≤ right, top ≤ bottom — the counterexample's degenerate bounds show the
clamp cannot land inside an empty range), every setPosition call, from every
state (idle or dragging), and every move-event update that actually fires
(emits a callback) stores a position inside the bounds; resetPosition,
however, stores (0,0) without clamping and can violate the bounds (see the
counterexample). -/
theorem c3_setPosition_and_moves_clamped (cfg : Config) (b : Bounds)
    (hb : cfg.bounds = some b) (hwf1 : b.left ≤ b.right)
    (hwf2 : b.top ≤ b.bottom) :
    (∀ (cs : ControllerState) (x y : Int),
      inBounds b (setPosition cfg cs x y).drag.position) ∧
    (∀ (cs cs' : ControllerState) (e : InputEvent) (cbs : List Callback),
      e.kind = EventKind.move →
      dispatchEvent cfg cs e = Except.ok (cs', cbs) → cbs ≠ [] →
      inBounds b cs'.drag.position) := by
  constructor
  · intro cs x y
    simp only [setPosition, hb]
    exact inBounds_constrainPosition b hwf1 hwf2 _
  · intro cs cs' e cbs hk hok hcb
    rcases dispatchEvent_ok_cases cfg cs e (cs', cbs) hok with
      h1 | ⟨hk', _⟩ | ⟨_, sp, p, _, _, _, _, hr⟩ | ⟨hk', _⟩
    · exact absurd (congrArg Prod.snd h1) hcb
    · rw [hk] at hk'; exact absurd hk' (by simp)
    · have h1 : cs' = (moveUpdate cfg cs sp p).1 := congrArg Prod.fst hr
      rw [h1]
      simp only [moveUpdate, hb]
      exact inBounds_constrainPosition b hwf1 hwf2 _
    · rw [hk] at hk'; exact absurd hk' (by simp)

/-- Witness for the amended C3: in the bounded configuration,
setPosition(70,5) called in the idle initial state (isDragging = false) is
clamped into bounds, and the scenario's move, which fires onMove, stores the
clamped (50,10) ∈ bounds. -/
theorem c3_witness :
    inBounds boundsEx (setPosition cfgBounded initialState 70 5).drag.position ∧
    inBounds boundsEx
      (⟨⟨true, ⟨50, 10⟩, ⟨50, 10⟩, some ⟨5, 5⟩⟩, some ⟨5, 5⟩,
        some elemTen⟩ : ControllerState).drag.position := by
  have h := c3_setPosition_and_moves_clamped cfgBounded boundsEx rfl
    (by decide) (by decide)
  exact ⟨h.1 initialState 70 5,
    h.2 (run cfgBounded initialState (scenarioTrace.take 2))
      ⟨⟨true, ⟨50, 10⟩, ⟨50, 10⟩, some ⟨5, 5⟩⟩, some ⟨5, 5⟩, some elemTen⟩
      evMove115
      [Callback.onMove ⟨true, ⟨50, 10⟩, ⟨50, 10⟩, some ⟨5, 5⟩⟩]
      rfl rfl (by decide)⟩

/-- Claim C4: the controller's own event processing never throws on any
event a browser can deliver (mouse events, or touch events whose touches
list is nonempty except possibly on touchend), and a move event with no
prior start (isDragging = false) is a silent no-op: state unchanged, no
callback fired. Callbacks are modelled as emitted data, so the only failure
that could escape is the caller's own callback. -/
theorem c4_no_throw_and_move_noop (cfg : Config) (cs : ControllerState)
    (e : InputEvent) (hwf : wellFormedEvent e) :
    (∃ r, dispatchEvent cfg cs e = .ok r) ∧
    (e.kind = EventKind.move → cs.drag.isDragging = false →
      dispatchEvent cfg cs e = .ok (cs, [])) := by
  constructor
  · by_cases hg : (!cfg.hasDocument || !cfg.hasWindow || cfg.disabled) = true
    · exact ⟨(cs, []), by simp only [dispatchEvent, hg, if_true]⟩
    · obtain ⟨k, d, t⟩ := e
      cases k with
      | down =>
          have hd := wellFormed_getCurrentPosition ⟨.down, d, t⟩ (by simp) hwf
          by_cases ht : targetMatches t cs.elementRef = true
          · obtain ⟨r, hr⟩ := handleDragStart_ok cfg cs d hd
            exact ⟨r, by simp [dispatchEvent, hg, ht, hr]⟩
          · exact ⟨(cs, []), by simp [dispatchEvent, hg, ht]⟩
      | move =>
          have hd := wellFormed_getCurrentPosition ⟨.move, d, t⟩ (by simp) hwf
          obtain ⟨r, hr⟩ := handleDragMove_ok cfg cs d hd
          exact ⟨r, by simp [dispatchEvent, hg, hr]⟩
      | up =>
          obtain ⟨r, hr⟩ := handleDragEnd_ok cs
          exact ⟨r, by simp [dispatchEvent, hg, hr]⟩
  · intro hk hdrag
    obtain ⟨k, d, t⟩ := e
    simp only at hk
    subst hk
    simp only [dispatchEvent]
    split
    · rfl
    · simp only [handleDragMove]
      cases cs.startPosRef
      · rfl
      · simp [hdrag]

/-- Witness for C4: a touchmove with one contact point in the idle initial
state is well-formed and is a silent no-op. -/
theorem c4_witness :
    (∃ r, dispatchEvent cfgPlain initialState
        ⟨EventKind.move, PointerData.touch [⟨4, 4⟩], 1⟩ = .ok r) ∧
    dispatchEvent cfgPlain initialState
        ⟨EventKind.move, PointerData.touch [⟨4, 4⟩], 1⟩ =
      .ok (initialState, []) := by
  have h := c4_no_throw_and_move_noop cfgPlain initialState
    ⟨EventKind.move, PointerData.touch [⟨4, 4⟩], 1⟩
    (by simp [wellFormedEvent])
  exact ⟨h.1, h.2 rfl rfl⟩

/-- Claim C5: whenever a move event actually updates the state (onMove
fires), the stored delta equals the new (post-axis-constraint, post-clamp)
position minus the position stored before the move, component-wise. -/
theorem c5_delta_consistency (cfg : Config) (cs cs' : ControllerState)
    (e : InputEvent) (s : DragState) (hk : e.kind = EventKind.move)
    (hok : dispatchEvent cfg cs e = Except.ok (cs', [Callback.onMove s])) :
    cs'.drag.delta.x = cs'.drag.position.x - cs.drag.position.x ∧
    cs'.drag.delta.y = cs'.drag.position.y - cs.drag.position.y := by
  rcases dispatchEvent_ok_cases cfg cs e (cs', [Callback.onMove s]) hok with
    h1 | ⟨hk', _⟩ | ⟨_, sp, p, _, _, _, _, hr⟩ | ⟨hk', _⟩
  · exact absurd (congrArg Prod.snd h1) (by simp)
  · rw [hk] at hk'; exact absurd hk' (by simp)
  · have h1 : cs' = (moveUpdate cfg cs sp p).1 := congrArg Prod.fst hr
    subst h1
    simp [moveUpdate]
  · rw [hk] at hk'; exact absurd hk' (by simp)

/-- Witness for C5: the scenario's move from the post-down state, where
delta (110,10) equals position (110,10) minus previous position (0,0). -/
theorem c5_witness :
    csAfterMove.drag.delta.x =
      csAfterMove.drag.position.x - csAfterDown.drag.position.x ∧
    csAfterMove.drag.delta.y =
      csAfterMove.drag.position.y - csAfterDown.drag.position.y :=
  c5_delta_consistency cfgPlain csAfterDown csAfterMove evMove115
    csAfterMove.drag rfl rfl

/-- Claim C6, amended: with axis = "x", after any sequence of move events
every resulting position.y equals the drag-start y when it is left untouched,
or the drag-start y clamped into the configured bounds' vertical range (the
clamp being the identity when no bounds are set); with bounds whose vertical
range excludes the start y, the stored y moves to the clamp of the start y
(see the counterexample), so "y stays at its drag-start value" holds exactly
in the no-bounds case. -/
theorem c6_axis_x_y_clamped (cfg : Config) (cs : ControllerState)
    (es : List InputEvent) (hax : cfg.axis = Axis.x)
    (hm : ∀ e ∈ es, e.kind = EventKind.move) :
    (run cfg cs (es.map Action.event)).drag.position.y = cs.drag.position.y ∨
    (run cfg cs (es.map Action.event)).drag.position.y =
      clampY cfg.bounds cs.drag.position.y := by
  induction es generalizing cs with
  | nil => exact Or.inl rfl
  | cons e rest ih =>
      rw [List.map_cons, run_cons]
      have h1 : (stepAction cfg cs (.event e)).1.drag.position.y =
          cs.drag.position.y ∨
          (stepAction cfg cs (.event e)).1.drag.position.y =
          clampY cfg.bounds cs.drag.position.y := by
        simp only [stepAction]
        cases hd : dispatchEvent cfg cs e with
        | error m => exact Or.inl rfl
        | ok r =>
            simp only
            rcases dispatchEvent_ok_cases cfg cs e r hd with
              h1 | ⟨hk', el, p, _, _, _, hr⟩ | ⟨_, sp, p, _, _, _, _, hr⟩ |
              ⟨hk', _, hr⟩
            · rw [h1]; exact Or.inl rfl
            · rw [hm e (List.mem_cons_self e rest)] at hk'
              exact absurd hk' (by simp)
            · subst hr
              right
              simp only [moveUpdate, hax]
              rw [constrainPosition_y]
              rfl
            · rw [hm e (List.mem_cons_self e rest)] at hk'
              exact absurd hk' (by simp)
      have h2 := ih ((stepAction cfg cs (.event e)).1)
        (fun x hx => hm x (List.mem_cons_of_mem e hx))
      rcases h1 with h1 | h1 <;> rcases h2 with h2 | h2
      · exact Or.inl (h2.trans h1)
      · exact Or.inr (by rw [h2, h1])
      · exact Or.inr (by rw [h2, h1])
      · exact Or.inr (by rw [h2, h1, clampY_idem])

/-- Witness for the amended C6: from the post-down state of the axis trace
(y = 0, bounds vertical range [10,50]) the single move yields y = 10, the
clamp of the drag-start y. -/
theorem c6_witness :
    (run cfgAxisX (run cfgAxisX initialState (axisTrace.take 2))
        (axisMoves.map Action.event)).drag.position.y =
      (run cfgAxisX initialState (axisTrace.take 2)).drag.position.y ∨
    (run cfgAxisX (run cfgAxisX initialState (axisTrace.take 2))
        (axisMoves.map Action.event)).drag.position.y =
      clampY cfgAxisX.bounds
        (run cfgAxisX initialState (axisTrace.take 2)).drag.position.y :=
  c6_axis_x_y_clamped cfgAxisX (run cfgAxisX initialState (axisTrace.take 2))
    axisMoves rfl (by decide)

/-- Claim C8: setPosition(x, y) stores exactly the clamp of (x, y) into the
configured bounds (exactly (x, y) when no bounds are set) and changes nothing
else: isDragging, delta, startPosition, and both refs are untouched. -/
theorem c8_setPosition_frame (cfg : Config) (cs : ControllerState)
    (x y : Int) :
    (setPosition cfg cs x y).drag.position = constrainPosition cfg.bounds ⟨x, y⟩ ∧
    (cfg.bounds = none → (setPosition cfg cs x y).drag.position = ⟨x, y⟩) ∧
    (∀ b, cfg.bounds = some b →
      (setPosition cfg cs x y).drag.position =
        ⟨max b.left (min b.right x), max b.top (min b.bottom y)⟩) ∧
    (setPosition cfg cs x y).drag.isDragging = cs.drag.isDragging ∧
    (setPosition cfg cs x y).drag.delta = cs.drag.delta ∧
    (setPosition cfg cs x y).drag.startPosition = cs.drag.startPosition ∧
    (setPosition cfg cs x y).startPosRef = cs.startPosRef ∧
    (setPosition cfg cs x y).elementRef = cs.elementRef := by
  refine ⟨rfl, ?_, ?_, rfl, rfl, rfl, rfl, rfl⟩
  · intro h; simp [setPosition, constrainPosition, h]
  · intro b h; simp [setPosition, constrainPosition, h]

/-- Witness for C8: setPosition(70,5) under bounds [10,50]×[10,50] stores the
clamp (50,10) and leaves delta untouched. -/
theorem c8_witness :
    (setPosition cfgBounded initialState 70 5).drag.position = ⟨50, 10⟩ ∧
    (setPosition cfgBounded initialState 70 5).drag.delta =
      initialState.drag.delta := by
  have h := c8_setPosition_frame cfgBounded initialState 70 5
  exact ⟨(h.2.2.1 boundsEx rfl).trans (by decide), h.2.2.2.2.1⟩

/-- Claim C9: with disabled = true the listener effect returns before
attaching any listener, so every pointer/touch event (down, move or up) in
every prior state leaves the state unchanged and fires no callback. -/
theorem c9_disabled_noop (cfg : Config) (cs : ControllerState)
    (e : InputEvent) (h : cfg.disabled = true) :
    dispatchEvent cfg cs e = .ok (cs, []) := by
  simp [dispatchEvent, h]

/-- Witness for C9: a down event on a disabled controller is a no-op. -/
theorem c9_witness :
    dispatchEvent ⟨Axis.both, none, true, true, true⟩ initialState
      ⟨EventKind.down, PointerData.mouse 1 1, 0⟩ =
    .ok (initialState, []) :=
  c9_disabled_noop ⟨Axis.both, none, true, true, true⟩ initialState
    ⟨EventKind.down, PointerData.mouse 1 1, 0⟩ rfl

/-- Claim C10: a pointer/touch-down whose target is not reference-identical
to the attached element (any other node, including a descendant of the
attached element, or no attached element at all) leaves the state unchanged
and fires no callback: the listeners forward down events only when
event.target === elementRef.current. -/
theorem c10_down_requires_target (cfg : Config) (cs : ControllerState)
    (e : InputEvent) (hk : e.kind = EventKind.down)
    (hm : targetMatches e.target cs.elementRef = false) :
    dispatchEvent cfg cs e = .ok (cs, []) := by
  obtain ⟨k, d, t⟩ := e
  simp only at hk hm
  subst hk
  simp only [dispatchEvent]
  split
  · rfl
  · simp [hm]

/-- Witness for C10: with the element of identity 1 attached, a mouse-down
targeting the distinct node 2 (a child, say) is a no-op. -/
theorem c10_witness :
    dispatchEvent cfgPlain (setElementRef initialState (some elemOrigin))
      ⟨EventKind.down, PointerData.mouse 3 3, 2⟩ =
    .ok (setElementRef initialState (some elemOrigin), []) :=
  c10_down_requires_target cfgPlain (setElementRef initialState (some elemOrigin))
    ⟨EventKind.down, PointerData.mouse 3 3, 2⟩ rfl (by decide)

end Hooksy
